import Mathlib

/-!
# Smart Reading List — verification of the specification against the code

Shallow embedding of the Smart Reading List repository (browser extension,
React frontend, and the backend contract) in Lean 4, used to check the
claims of the natural-language specification.

Frontend/extension functions are translated from the TypeScript/JavaScript
sources under `src/`.  JavaScript strings are modelled as Lean `String`
(lists of characters); `String.prototype.trim` is modelled as removing
whitespace characters from both ends, `toLowerCase` as `String.toLower`,
`split(sep)` as `String.splitOn`, `includes(sub)` as infix containment.
Backend components (FastAPI service) are not part of the given sources;
where a claim depends on them they are modelled from the specification,
with a doc comment saying so.
-/

set_option maxRecDepth 8000

namespace SmartReadingList

/-- Embedding of JavaScript `String.prototype.trim`: drop whitespace
characters from both ends of the string. -/
def jsTrim (s : String) : String :=
  ⟨((s.data.dropWhile Char.isWhitespace).reverse.dropWhile Char.isWhitespace).reverse⟩

/-- Embedding of JavaScript `s.slice(0, n)` for a nonnegative bound `n`:
the first `n` characters of `s`. -/
def jsSlice (s : String) (n : Nat) : String :=
  ⟨s.data.take n⟩

/-- Embedding of JavaScript `s.includes(sub)`: substring containment. -/
def jsIncludes (s sub : String) : Bool :=
  decide (sub.data <:+: s.data)

/-- Splitting a character list at every occurrence of the separator
character (the char-list core of JavaScript `split(sep)` for a one-character
separator; empty segments are kept, as in JavaScript). -/
def splitChar (sep : Char) : List Char → List (List Char)
  | [] => [[]]
  | c :: cs =>
    if c = sep then [] :: splitChar sep cs
    else
      match splitChar sep cs with
      | [] => [[c]]
      | t :: ts => (c :: t) :: ts

/-- Embedding of JavaScript `s.split(sep)` for a one-character separator. -/
def jsSplit (s : String) (sep : Char) : List String :=
  (splitChar sep s.data).map (fun l => ⟨l⟩)

/-- Embedding of JavaScript `s.toLowerCase()` (character-wise lowering). -/
def jsToLower (s : String) : String :=
  ⟨s.data.map Char.toLower⟩

/-- Tag parsing performed by `saveArticle` in `extension/popup/popup.js`
(lines 58–61): `tagsInput.value.split(',').map(t => t.trim().toLowerCase())
.filter(t => t.length > 0)`. -/
def parseTags (input : String) : List String :=
  ((jsSplit input ',').map (fun t => jsToLower (jsTrim t))).filter
    (fun t => t.length > 0)

/-- `handleAddTag` from `ArticleDetail` (src/unnamed/part_000, lines 23–29):
normalizes the input, and issues a tag update (`some newTags`) exactly when
the normalized tag is non-empty and not already present; otherwise no
update is issued (`none`). -/
def handleAddTag (tags : List String) (tagInput : String) : Option (List String) :=
  let newTag := jsToLower (jsTrim tagInput)
  if newTag.length > 0 && !(tags.contains newTag) then
    some (tags ++ [newTag])
  else
    none

/-- `truncate` from `frontend/src/services/api.ts` (lines 147–150):
`if (text.length <= maxLength) return text;
 return text.slice(0, maxLength).trim() + '...';`. -/
def truncate (text : String) (maxLength : Nat) : String :=
  if text.length ≤ maxLength then text
  else jsTrim (jsSlice text maxLength) ++ "..."

/-- Trailing-whitespace-only trim: removes whitespace from the end of a
string but keeps leading whitespace. -/
def jsTrimRight (s : String) : String :=
  ⟨(s.data.reverse.dropWhile Char.isWhitespace).reverse⟩

/-! ### Helper lemmas -/

theorem string_length_pos (s : String) : 0 < s.length ↔ s ≠ "" := by
  cases s with
  | mk l =>
    cases l with
    | nil => simp [String.length]
    | cons c cs =>
      simp only [String.length, List.length_cons]
      constructor
      · intro _ h
        have : (c :: cs : List Char) = [] := congrArg String.data h
        exact List.noConfusion this
      · intro _
        exact Nat.succ_pos _

theorem string_data_append (s t : String) : (s ++ t).data = s.data ++ t.data := by
  cases s; cases t; rfl

theorem string_length_append (s t : String) : (s ++ t).length = s.length + t.length := by
  show (s ++ t).data.length = s.data.length + t.data.length
  rw [string_data_append, List.length_append]

theorem jsTrim_length_le (s : String) : (jsTrim s).length ≤ s.length := by
  show (((s.data.dropWhile Char.isWhitespace).reverse.dropWhile
      Char.isWhitespace).reverse).length ≤ s.data.length
  rw [List.length_reverse]
  calc ((s.data.dropWhile Char.isWhitespace).reverse.dropWhile Char.isWhitespace).length
      ≤ (s.data.dropWhile Char.isWhitespace).reverse.length :=
        (List.dropWhile_sublist _).length_le
    _ = (s.data.dropWhile Char.isWhitespace).length := List.length_reverse _
    _ ≤ s.data.length := (List.dropWhile_sublist _).length_le

theorem jsSlice_length_le (s : String) (n : Nat) : (jsSlice s n).length ≤ n := by
  show (s.data.take n).length ≤ n
  exact List.length_take_le _ _

theorem contains_iff_mem (l : List String) (a : String) : l.contains a = true ↔ a ∈ l := by
  simp [List.contains, List.elem_iff]

/-! ### C1 — tag normalization in the extension popup -/

/-- C1 (counterexample): the popup's tag parsing (`popup.js` lines 58–61)
trims, lower-cases and drops empties but does NOT deduplicate: the input
`"  AI, Machine-Learning , ai "` yields the list
`["ai", "machine-learning", "ai"]`, which contains the duplicate `"ai"`,
so it is not the claimed two-element deduplicated list. -/
theorem C1_counterexample :
    parseTags "  AI, Machine-Learning , ai " = ["ai", "machine-learning", "ai"] ∧
    ¬ (parseTags "  AI, Machine-Learning , ai ").Nodup ∧
    parseTags "  AI, Machine-Learning , ai " ≠ ["ai", "machine-learning"] := by
  decide

/-- C1 (amended): every tag produced by the popup's tag parsing is the
trimmed, lower-cased form of one comma-separated segment of the input and
is non-empty, but duplicates are not removed: the input
`"  AI, Machine-Learning , ai "` yields `["ai", "machine-learning", "ai"]`
(whose underlying set is `{"ai", "machine-learning"}`, with `"ai"`
appearing twice). -/
theorem C1_tag_normalization :
    (∀ (input t : String), t ∈ parseTags input →
      0 < t.length ∧ ∃ raw ∈ jsSplit input ',', t = jsToLower (jsTrim raw)) ∧
    parseTags "  AI, Machine-Learning , ai " = ["ai", "machine-learning", "ai"] := by
  constructor
  · intro input t ht
    unfold parseTags at ht
    rw [List.mem_filter] at ht
    obtain ⟨hm, hl⟩ := ht
    rw [List.mem_map] at hm
    obtain ⟨raw, hraw, rfl⟩ := hm
    exact ⟨by simpa using hl, raw, hraw, rfl⟩
  · decide

/-- C1 (witness): instantiation of `C1_tag_normalization` at the concrete
input from the specification. -/
theorem C1_tag_normalization_witness :
    "ai" ∈ parseTags "  AI, Machine-Learning , ai " ∧
    (0 < ("ai" : String).length ∧
      ∃ raw ∈ jsSplit "  AI, Machine-Learning , ai " ',',
        "ai" = jsToLower (jsTrim raw)) :=
  ⟨by decide, C1_tag_normalization.1 "  AI, Machine-Learning , ai " "ai" (by decide)⟩

/-! ### C8 — idempotence of ArticleDetail's add-tag action -/

/-- Characterization of `handleAddTag` as a propositional conditional. -/
theorem handleAddTag_eq (tags : List String) (input : String) :
    handleAddTag tags input =
      if 0 < (jsToLower (jsTrim input)).length ∧ jsToLower (jsTrim input) ∉ tags
      then some (tags ++ [jsToLower (jsTrim input)]) else none := by
  unfold handleAddTag
  by_cases hpos : 0 < (jsToLower (jsTrim input)).length
  · by_cases hmem : jsToLower (jsTrim input) ∈ tags
    · have hc : tags.contains (jsToLower (jsTrim input)) = true :=
        (contains_iff_mem _ _).mpr hmem
      simp [hpos, hc, hmem]
    · have hc : tags.contains (jsToLower (jsTrim input)) = false := by
        rw [← Bool.not_eq_true, contains_iff_mem]; exact hmem
      simp [hpos, hc, hmem]
  · have h0 : (jsToLower (jsTrim input)).length = 0 :=
      Nat.le_zero.mp (Nat.not_lt.mp hpos)
    simp [h0]

/-- C8: `handleAddTag` is idempotent on the tag set: when the normalized
input is empty or already present no update is issued and the tag list is
unchanged; otherwise exactly that one normalized tag is appended, and
re-running the action on the updated list issues no further update. -/
theorem C8_addTag_idempotent :
    ∀ (tags : List String) (input : String),
      (jsToLower (jsTrim input) = "" ∨ jsToLower (jsTrim input) ∈ tags →
        handleAddTag tags input = none) ∧
      (jsToLower (jsTrim input) ≠ "" → jsToLower (jsTrim input) ∉ tags →
        handleAddTag tags input = some (tags ++ [jsToLower (jsTrim input)])) ∧
      (∀ newTags, handleAddTag tags input = some newTags →
        handleAddTag newTags input = none) := by
  intro tags input
  refine ⟨?_, ?_, ?_⟩
  · intro h
    rw [handleAddTag_eq, if_neg]
    rintro ⟨hp, hm⟩
    rcases h with h | h
    · exact absurd ((string_length_pos _).mp hp) (by simp [h])
    · exact hm h
  · intro h1 h2
    rw [handleAddTag_eq, if_pos ⟨(string_length_pos _).mpr h1, h2⟩]
  · intro newTags h
    rw [handleAddTag_eq] at h
    split at h
    · rename_i hcond
      injection h with h
      subst h
      rw [handleAddTag_eq, if_neg]
      rintro ⟨_, hm⟩
      exact hm (List.mem_append_right _ (List.mem_singleton_self _))
    · exact Option.noConfusion h

/-- C8 (witness): instantiation of `C8_addTag_idempotent` on concrete
tag lists and inputs. -/
theorem C8_addTag_idempotent_witness :
    handleAddTag ["ai"] " AI " = none ∧
    handleAddTag ["ai"] " ML " = some ["ai", "ml"] :=
  ⟨(C8_addTag_idempotent ["ai"] " AI ").1 (Or.inr (by decide)),
   ((C8_addTag_idempotent ["ai"] " ML ").2.1 (by decide) (by decide)).trans (by decide)⟩

/-! ### C9 — truncate -/

/-- C9 (counterexample): `truncate` trims whitespace from BOTH ends of the
kept prefix, not only trailing whitespace: `truncate "  abcdef" 4` is
`"ab..."` and not `"  ab..."` (the first four characters with only
trailing whitespace removed, followed by `"..."`). Moreover a short input
that already ends in `"..."` is returned unchanged, so a result ending in
`"..."` does not imply that truncation occurred. -/
theorem C9_counterexample :
    truncate "  abcdef" 4 = "ab..." ∧
    jsTrimRight (jsSlice "  abcdef" 4) ++ "..." = "  ab..." ∧
    truncate "  abcdef" 4 ≠ jsTrimRight (jsSlice "  abcdef" 4) ++ "..." ∧
    truncate "..." 5 = "..." ∧ ("..." : String).length ≤ 5 ∧
    ("..." : String).data <:+ (truncate "..." 5).data := by
  decide

/-- C9 (amended): `truncate text maxLength` returns `text` unchanged when
`text.length ≤ maxLength`; otherwise it returns the first `maxLength`
characters with whitespace trimmed from both ends followed by `"..."`.
The result's length is always at most `maxLength + 3`, and whenever
truncation occurred the result ends with `"..."` (the converse fails). -/
theorem C9_truncate_bound :
    ∀ (text : String) (maxLength : Nat),
      (text.length ≤ maxLength → truncate text maxLength = text) ∧
      (truncate text maxLength).length ≤ maxLength + 3 ∧
      (maxLength < text.length →
        ("..." : String).data <:+ (truncate text maxLength).data) := by
  intro text maxLength
  by_cases h : text.length ≤ maxLength
  · refine ⟨fun _ => by simp [truncate, h], ?_, ?_⟩
    · simp only [truncate, if_pos h]
      omega
    · intro hlt
      exact absurd h (Nat.not_le.mpr hlt)
  · refine ⟨fun hle => absurd hle h, ?_, ?_⟩
    · simp only [truncate, if_neg h]
      rw [string_length_append]
      have h1 : (jsTrim (jsSlice text maxLength)).length ≤ maxLength :=
        le_trans (jsTrim_length_le _) (jsSlice_length_le _ _)
      have h2 : ("..." : String).length = 3 := by decide
      omega
    · intro _
      simp only [truncate, if_neg h, string_data_append]
      exact List.suffix_append _ _

/-- C9 (witness): instantiation of `C9_truncate_bound` at concrete inputs. -/
theorem C9_truncate_bound_witness :
    truncate "hi" 5 = "hi" ∧ (truncate "  abcdef" 4).length ≤ 4 + 3 ∧
    ("..." : String).data <:+ (truncate "  abcdef" 4).data :=
  ⟨(C9_truncate_bound "hi" 5).1 (by decide), (C9_truncate_bound "  abcdef" 4).2.1,
   (C9_truncate_bound "  abcdef" 4).2.2 (by decide)⟩

/-! ### C10 — fetchDocuments query-parameter construction -/

/-- Options object of `fetchDocuments` (api.ts lines 46–52); `none` models
an absent (undefined) field. -/
structure FetchOptions where
  limit : Option Nat
  offset : Option Nat
  tags : Option (List String)
  read_status : Option Bool

/-- Query-parameter construction of `fetchDocuments` (api.ts lines 54–58),
as the ordered list of appended key/value pairs.  JavaScript truthiness:
`if (options.limit)` skips both `undefined` and `0`; `options.tags?.length`
skips both `undefined` and `[]`; `options.read_status !== undefined`
includes `false`. -/
def buildParams (o : FetchOptions) : List (String × String) :=
  (match o.limit with
   | some n => if n ≠ 0 then [("limit", toString n)] else []
   | none => []) ++
  (match o.offset with
   | some n => if n ≠ 0 then [("offset", toString n)] else []
   | none => []) ++
  (match o.tags with
   | some ts => if ts.length ≠ 0 then [("tags", String.intercalate "," ts)] else []
   | none => []) ++
  (match o.read_status with
   | some b => [("read_status", if b then "true" else "false")]
   | none => [])

/-- C10: a falsy pagination value is omitted — `limit = 0` (resp.
`offset = 0`) produces exactly the parameter list of the request with that
option absent, and no `limit` (resp. `offset`) parameter appears — while
`read_status` is appended whenever it is defined, including `false`. -/
theorem C10_falsy_params :
    ∀ (o : FetchOptions),
      (o.limit = some 0 →
        buildParams o = buildParams ⟨none, o.offset, o.tags, o.read_status⟩ ∧
        ∀ v, ("limit", v) ∉ buildParams o) ∧
      (o.offset = some 0 →
        buildParams o = buildParams ⟨o.limit, none, o.tags, o.read_status⟩ ∧
        ∀ v, ("offset", v) ∉ buildParams o) ∧
      (∀ b, o.read_status = some b →
        ("read_status", if b then "true" else "false") ∈ buildParams o) := by
  rintro ⟨lim, off, tg, rs⟩
  refine ⟨?_, ?_, ?_⟩
  · rintro rfl
    constructor
    · simp [buildParams]
    · intro v hv
      simp only [buildParams] at hv
      rcases off with _ | n <;> rcases tg with _ | ts <;> rcases rs with _ | b <;>
        simp_all
  · rintro rfl
    constructor
    · simp [buildParams]
    · intro v hv
      simp only [buildParams] at hv
      rcases lim with _ | n <;> rcases tg with _ | ts <;> rcases rs with _ | b <;>
        simp_all
  · rintro b rfl
    simp [buildParams]

/-- C10 (witness): instantiation of `C10_falsy_params` at a concrete
options object with `limit = 0` and `read_status = false`. -/
theorem C10_falsy_params_witness :
    buildParams ⟨some 0, some 2, none, some false⟩ =
      buildParams ⟨none, some 2, none, some false⟩ ∧
    ("read_status", "false") ∈ buildParams ⟨some 0, some 2, none, some false⟩ :=
  ⟨((C10_falsy_params ⟨some 0, some 2, none, some false⟩).1 rfl).1,
   by
    have h := (C10_falsy_params ⟨some 0, some 2, none, some false⟩).2.2 false rfl
    simpa using h⟩

/-! ### C2, C6, C7 — the Document / search / health interface contracts -/

/-- The `Document` interface of the frontend API service
(api.ts lines 5–19).  `summary` is a plain (non-nullable) string; the
interface carries NO `summary_status` field.  The TS `number` of
`relevance_score` is modelled as `ℚ`. -/
structure Document where
  id : String
  url : String
  title : String
  author : Option String
  published_date : Option String
  source_type : String
  content : String
  summary : String
  tags : List String
  read_status : Bool
  created_at : String
  updated_at : String
  relevance_score : Option ℚ
deriving DecidableEq

/-- Field names of the `Document` interface (api.ts lines 5–19), in
declaration order. -/
def documentFields : List String :=
  ["id", "url", "title", "author", "published_date", "source_type",
   "content", "summary", "tags", "read_status", "created_at", "updated_at",
   "relevance_score"]

/-- Field names of the `SearchResponse` interface (api.ts lines 28–32). -/
def searchResponseFields : List String :=
  ["results", "total", "query"]

/-- Field names of the `HealthStatus` interface (api.ts lines 39–43). -/
def healthStatusFields : List String :=
  ["status", "ollama", "vector_store_count"]

/-- The client-side "summary is being generated" detection of
`ArticleCard.tsx` line 16: `article.summary.includes('Generating')`. -/
def isGeneratingSummary (article : Document) : Bool :=
  jsIncludes article.summary "Generating"

/-- A concrete document whose summary holds the backend's pending
sentinel text. -/
def docGenerating : Document :=
  { id := "doc-1", url := "https://example.com/a", title := "A",
    author := none, published_date := none, source_type := "web_article",
    content := "text", summary := "Generating summary...", tags := [],
    read_status := false, created_at := "2024-01-01T00:00:00",
    updated_at := "2024-01-01T00:00:00", relevance_score := none }

/-- The same document once its summary has been produced. -/
def docDone : Document :=
  { docGenerating with summary := "A complete summary." }

/-- A document with a finished summary that merely mentions the word
`Generating`. -/
def docMentionsGenerating : Document :=
  { docGenerating with summary := "Generating functions in combinatorics." }

/-- C2 (counterexample): the `Document` interface carries no
`summary_status` enum; the client derives the generating state by
pattern-matching the sentinel substring `"Generating"` inside the
`summary` field.  Two documents identical except for the summary text get
different generating states, and a finished summary that merely mentions
the word `Generating` is classified as pending. -/
theorem C2_counterexample :
    docGenerating.id = docDone.id ∧
    docGenerating.url = docDone.url ∧
    docGenerating.summary ≠ docDone.summary ∧
    isGeneratingSummary docGenerating = true ∧
    isGeneratingSummary docDone = false ∧
    isGeneratingSummary docMentionsGenerating = true := by
  decide

/-- C2 (amended): in every `Document` exposed to callers the `summary`
field is a plain non-null string, but there is no separate status enum:
the pending/generating state is communicated by sentinel text embedded in
the summary itself, which the client pattern-matches — the client's
generating state is a function of the summary text alone. -/
theorem C2_summary_sentinel :
    ∀ (d e : Document), d.summary = e.summary →
      isGeneratingSummary d = isGeneratingSummary e := by
  intro d e h
  unfold isGeneratingSummary jsIncludes
  rw [h]

/-- C2 (witness): instantiation of `C2_summary_sentinel` at two concrete
documents with the same summary. -/
theorem C2_summary_sentinel_witness :
    isGeneratingSummary docGenerating =
      isGeneratingSummary { docGenerating with read_status := true } :=
  C2_summary_sentinel docGenerating { docGenerating with read_status := true } rfl

/-! ### C6 — the /health response shape -/

/-- The `HealthStatus` interface of the frontend API service
(api.ts lines 39–43): the oracle's availability is reported under the
field name `ollama`, not `oracle_status`. -/
structure HealthStatus where
  status : String
  ollama : String
  vector_store_count : Nat

/-- Key/value view of a serialized `HealthStatus` response. -/
def healthStatusPairs (h : HealthStatus) : List (String × String) :=
  [("status", h.status), ("ollama", h.ollama),
   ("vector_store_count", toString h.vector_store_count)]

/-- C6 (counterexample): the health response contract has no
`oracle_status` field — the oracle's availability is carried under the
field name `ollama`. -/
theorem C6_counterexample :
    "oracle_status" ∉ healthStatusFields ∧ "ollama" ∈ healthStatusFields := by
  decide

/-- C6 (amended): every successful GET /health response is an object with
exactly the fields `{status, ollama, vector_store_count}` — the external
oracle's availability is reported under the field name `ollama`, and no
`oracle_status` field exists. -/
theorem C6_health_fields :
    ∀ h : HealthStatus,
      (healthStatusPairs h).map Prod.fst = healthStatusFields ∧
      (healthStatusPairs h).length = 3 ∧
      ∀ v, ("oracle_status", v) ∉ healthStatusPairs h := by
  intro h
  refine ⟨rfl, rfl, ?_⟩
  intro v hv
  simp only [healthStatusPairs, List.mem_cons, List.mem_singleton,
    Prod.mk.injEq, List.not_mem_nil] at hv
  rcases hv with ⟨h1, _⟩ | ⟨h1, _⟩ | ⟨h1, _⟩ | h1
  · exact absurd h1 (by decide)
  · exact absurd h1 (by decide)
  · exact absurd h1 (by decide)
  · exact h1

/-- C6 (witness): instantiation of `C6_health_fields` at a concrete
health response. -/
theorem C6_health_fields_witness :
    (healthStatusPairs ⟨"healthy", "available", 5⟩).map Prod.fst =
      healthStatusFields :=
  (C6_health_fields ⟨"healthy", "available", 5⟩).1

/-! ### C7 — matched_signal on search results -/

/-- C7 (counterexample): neither the result documents nor the search
response carry a `matched_signal` field. -/
theorem C7_counterexample :
    "matched_signal" ∉ documentFields ∧
    "matched_signal" ∉ searchResponseFields := by
  decide

/-- C7 (amended): each search result is a full `Document` carrying an
optional `relevance_score` field besides the document data; no
`matched_signal` field (lexical/semantic/both provenance) exists anywhere
in the search response contract exposed to API clients. -/
theorem C7_search_hit_fields :
    searchResponseFields = ["results", "total", "query"] ∧
    "relevance_score" ∈ documentFields ∧
    "matched_signal" ∉ documentFields ∧
    "matched_signal" ∉ searchResponseFields ∧
    documentFields.Nodup := by
  decide

namespace Backend

/-! ### Backend model

The backend service (IngestionPipeline, SearchEngine, workers) is not part
of the given sources; the definitions below are modelled from the
specification, as their doc comments state.  Timestamps and similarity
scores are modelled as integers/naturals. -/

/-- Modelled from the spec: the summary enrichment status of a Document
(`summary_status ∈ {pending, generating, done, failed}`); the backend
DocumentStore is missing from the sources. -/
inductive SummaryStatus
  | pending
  | generating
  | done
  | failed
deriving DecidableEq

/-- Modelled from the spec: the embedding enrichment status of a Document
(`embedding_status ∈ {pending, indexed, failed}`); the backend
DocumentStore is missing from the sources. -/
inductive EmbeddingStatus
  | pending
  | indexed
  | failed
deriving DecidableEq

/-- Modelled from the spec: the authoritative Document record of the
DocumentStore (§3 Data model); the backend is missing from the sources.
`created_at` is a timestamp modelled as a natural number. -/
structure Doc where
  id : Nat
  canonical_url : String
  title : String
  content : String
  tags : List String
  summary : String
  summary_status : SummaryStatus
  embedding_status : EmbeddingStatus
  read_status : Bool
  created_at : Nat
deriving DecidableEq

/-- Modelled from the spec: the DocumentStore's live rows plus a fresh-id
counter; the backend store is missing from the sources. -/
structure Store where
  docs : List Doc
  nextId : Nat
deriving DecidableEq

/-- Modelled from the spec: uniqueness lookup by canonical URL among live
documents. -/
def findByUrl (st : Store) (u : String) : Option Doc :=
  st.docs.find? (fun d => d.canonical_url == u)

/-- Modelled from the spec: lookup of a live document by id. -/
def lookupDoc (st : Store) (i : Nat) : Option Doc :=
  st.docs.find? (fun d => d.id == i)

/-- Modelled from the spec: outcome of `IngestionPipeline.Save` — HTTP 201
with the created document, or HTTP 409 Conflict referencing the existing
document. -/
inductive SaveResult
  | created (d : Doc)
  | conflict (existing : Doc)
deriving DecidableEq

/-- Modelled from the spec: the freshly persisted Document row — both
enrichment statuses `pending`, placeholder summary, unread. -/
def mkDoc (id : Nat) (u title content : String) (tags : List String) (now : Nat) : Doc :=
  { id := id, canonical_url := u, title := title, content := content,
    tags := tags, summary := "Generating summary...",
    summary_status := .pending, embedding_status := .pending,
    read_status := false, created_at := now }

/-- Modelled from the spec: `IngestionPipeline.Save` (§4.1); the backend is
missing from the sources.  The spec's per-canonical-url advisory lock makes
the existence-check-then-insert critical section mutually exclusive, so the
critical sections of two concurrent saves of one canonical URL execute
serially; `save` is therefore modelled as an atomic check-then-insert, with
the two interleavings of a concurrent pair given by the two sequential
orders.  The `u` argument is the canonical URL. -/
def save (st : Store) (u title content : String) (tags : List String) (now : Nat) :
    SaveResult × Store :=
  match findByUrl st u with
  | some d => (.conflict d, st)
  | none =>
    let d := mkDoc st.nextId u title content tags now
    (.created d, { docs := st.docs ++ [d], nextId := st.nextId + 1 })

/-- Modelled from the spec: a chunk hit retrieved from the VectorIndex for
an embedded query, with its similarity score (scores modelled as
integers); the backend VectorIndex is missing from the sources. -/
structure ChunkHit where
  doc_id : Nat
  chunk_index : Nat
  score : Int
deriving DecidableEq

/-- Modelled from the spec: a search hit — a document reference together
with its relevance score. -/
structure SearchHit where
  doc : Doc
  relevance_score : Int
deriving DecidableEq

/-- Modelled from the spec: the result ordering — relevance score
descending, ties broken by `created_at` descending. -/
def hitOrder (a b : SearchHit) : Prop :=
  b.relevance_score < a.relevance_score ∨
    (a.relevance_score = b.relevance_score ∧ b.doc.created_at ≤ a.doc.created_at)

instance : DecidableRel hitOrder := fun a b => by
  unfold hitOrder
  exact inferInstance

instance : IsTotal SearchHit hitOrder := ⟨by
  intro a b
  unfold hitOrder
  rcases lt_trichotomy a.relevance_score b.relevance_score with h | h | h
  · exact Or.inr (Or.inl h)
  · rcases Nat.le_total b.doc.created_at a.doc.created_at with h2 | h2
    · exact Or.inl (Or.inr ⟨h, h2⟩)
    · exact Or.inr (Or.inr ⟨h.symm, h2⟩)
  · exact Or.inl (Or.inl h)⟩

instance : IsTrans SearchHit hitOrder := ⟨by
  intro a b c hab hbc
  unfold hitOrder at hab hbc ⊢
  rcases hab with h1 | h1 <;> rcases hbc with h2 | h2
  · exact Or.inl (lt_trans h2 h1)
  · exact Or.inl (h2.1 ▸ h1)
  · rw [h1.1]
    exact Or.inl h2
  · exact Or.inr ⟨h1.1.trans h2.1, le_trans h2.2 h1.2⟩⟩

/-- Modelled from the spec: final ranking step shared by both search
modes — sort by `hitOrder` (score descending, ties by `created_at`
descending), then truncate to `limit`. -/
def rank (hits : List SearchHit) (limit : Nat) : List SearchHit :=
  (List.insertionSort hitOrder hits).take limit

/-- Scores of the retrieved chunks that belong to document `i`. -/
def chunkScoresFor (hits : List ChunkHit) (i : Nat) : List Int :=
  (hits.filter (fun h => h.doc_id == i)).map (fun h => h.score)

/-- Modelled from the spec: per-document aggregation of chunk hits — each
document id occurring among the hits is paired with the maximum of its
chunk scores (deduplication by document id keeping the best score). -/
def aggregate (hits : List ChunkHit) : List (Nat × Int) :=
  ((hits.map (fun h => h.doc_id)).dedup).filterMap
    (fun i => ((chunkScoresFor hits i).max?).map (fun s => (i, s)))

/-- Modelled from the spec: resolution of one aggregated (document id,
best score) pair — the document is looked up in the store and kept only
when its `embedding_status` is `indexed`. -/
def resolveHit (st : Store) (p : Nat × Int) : Option SearchHit :=
  match lookupDoc st p.1 with
  | some d => if d.embedding_status = .indexed then some ⟨d, p.2⟩ else none
  | none => none

/-- Modelled from the spec: semantic mode of `SearchEngine.Query` (§4.4);
the backend is missing from the sources.  The chunk hits retrieved from
the VectorIndex for the embedded query are a parameter (the embedding
oracle and the similarity search are external).  Aggregated hits are
resolved against the store, restricted to documents with
`embedding_status = indexed`, ranked, and truncated to `limit`. -/
def semanticSearch (st : Store) (hits : List ChunkHit) (limit : Nat) : List SearchHit :=
  rank ((aggregate hits).filterMap (resolveHit st)) limit

/-- Modelled from the spec: query tokenization for lexical mode. -/
def tokenize (q : String) : List String :=
  ((jsSplit q ' ').map jsToLower).filter (fun t => t ≠ "")

/-- Modelled from the spec: lexical full-text score of a document — the
number of query tokens occurring in the lowered title or content. -/
def lexScore (d : Doc) (toks : List String) : Int :=
  ((toks.filter (fun t =>
    jsIncludes (jsToLower d.title ++ " " ++ jsToLower d.content) t)).length : Int)

/-- Modelled from the spec: lexical mode of `SearchEngine.Query` (§4.4);
documents with a non-zero token-match score are ranked and truncated. -/
def lexicalSearch (st : Store) (q : String) (limit : Nat) : List SearchHit :=
  rank ((st.docs.filter (fun d => lexScore d (tokenize q) != 0)).map
    (fun d => ⟨d, lexScore d (tokenize q)⟩)) limit

/-- Modelled from the spec: `SearchEngine.Query` dispatching on the
semantic flag. -/
def query (st : Store) (q : String) (semantic : Bool) (hits : List ChunkHit)
    (limit : Nat) : List SearchHit :=
  if semantic then semanticSearch st hits limit else lexicalSearch st q limit

/-! ### Helper lemmas about the backend model -/

theorem rank_sorted (hits : List SearchHit) (limit : Nat) :
    List.Sorted hitOrder (rank hits limit) :=
  List.Pairwise.sublist (List.take_sublist _ _)
    (List.sorted_insertionSort hitOrder hits)

theorem rank_length_le (hits : List SearchHit) (limit : Nat) :
    (rank hits limit).length ≤ limit :=
  List.length_take_le _ _

theorem mem_of_mem_rank {hits : List SearchHit} {limit : Nat} {h : SearchHit}
    (hm : h ∈ rank hits limit) : h ∈ hits :=
  (List.mem_insertionSort hitOrder).mp ((List.take_sublist _ _).subset hm)

theorem filterMap_map_key_sublist {α β γ : Type} (f : α → Option β)
    (key : β → γ) (keyIn : α → γ)
    (hf : ∀ a b, f a = some b → key b = keyIn a) :
    ∀ l : List α, List.Sublist ((l.filterMap f).map key) (l.map keyIn) := by
  intro l
  induction l with
  | nil => simp
  | cons a t ih =>
    cases hfa : f a with
    | none =>
      rw [List.filterMap_cons, hfa, List.map_cons]
      exact ih.cons _
    | some b =>
      rw [List.filterMap_cons, hfa, List.map_cons, List.map_cons, hf a b hfa]
      exact ih.cons₂ _

theorem lookupDoc_id {st : Store} {i : Nat} {d : Doc}
    (h : lookupDoc st i = some d) : d.id = i := by
  have hp := List.find?_some h
  simpa using hp

theorem resolveHit_some {st : Store} {p : Nat × Int} {h : SearchHit}
    (hr : resolveHit st p = some h) :
    lookupDoc st p.1 = some h.doc ∧ h.doc.embedding_status = .indexed ∧
      h.doc.id = p.1 ∧ h.relevance_score = p.2 := by
  unfold resolveHit at hr
  cases hl : lookupDoc st p.1 with
  | none =>
    simp only [hl] at hr
    exact Option.noConfusion hr
  | some d =>
    simp only [hl] at hr
    by_cases he : d.embedding_status = .indexed
    · rw [if_pos he] at hr
      injection hr with hr
      rw [← hr]
      exact ⟨rfl, he, lookupDoc_id hl, rfl⟩
    · rw [if_neg he] at hr
      exact Option.noConfusion hr

theorem mem_aggregate {hits : List ChunkHit} {p : Nat × Int}
    (hp : p ∈ aggregate hits) :
    (chunkScoresFor hits p.1).max? = some p.2 := by
  unfold aggregate at hp
  rw [List.mem_filterMap] at hp
  obtain ⟨i, _, hmap⟩ := hp
  rw [Option.map_eq_some'] at hmap
  obtain ⟨s, hs, hps⟩ := hmap
  rw [← hps]
  exact hs

theorem aggregate_keys_nodup (hits : List ChunkHit) :
    ((aggregate hits).map Prod.fst).Nodup := by
  have hsub : List.Sublist ((aggregate hits).map Prod.fst)
      (((hits.map (fun h => h.doc_id)).dedup).map id) := by
    apply filterMap_map_key_sublist
    intro i p hp
    rw [Option.map_eq_some'] at hp
    obtain ⟨s, _, hps⟩ := hp
    rw [← hps]
    rfl
  rw [List.map_id] at hsub
  exact List.Nodup.sublist hsub (List.nodup_dedup _)

/-- The unranked hit list feeding `rank` in each search mode. -/
def querySource (st : Store) (q : String) (semantic : Bool)
    (hits : List ChunkHit) : List SearchHit :=
  if semantic then (aggregate hits).filterMap (resolveHit st)
  else (st.docs.filter (fun d => lexScore d (tokenize q) != 0)).map
    (fun d => ⟨d, lexScore d (tokenize q)⟩)

theorem query_eq_rank (st : Store) (q : String) (semantic : Bool)
    (hits : List ChunkHit) (limit : Nat) :
    query st q semantic hits limit = rank (querySource st q semantic hits) limit := by
  unfold query querySource semanticSearch lexicalSearch
  cases semantic <;> simp

/-! ### C3 — concurrent saves of one canonical URL -/

/-- C3: two saves of the same canonical URL against a store not yet
holding that URL produce exactly one 201 Created and one 409 Conflict
referencing the created document, and the second outcome can never be a
201 — the spec's per-URL advisory lock serializes the two critical
sections, so the concurrent pair is the two sequential orders, both
covered by the universally quantified arguments. -/
theorem C3_concurrent_save_unique :
    ∀ (st : Store) (u t₁ c₁ : String) (g₁ : List String) (n₁ : Nat)
      (t₂ c₂ : String) (g₂ : List String) (n₂ : Nat),
      findByUrl st u = none →
      ∃ d : Doc,
        (save st u t₁ c₁ g₁ n₁).1 = .created d ∧
        (save (save st u t₁ c₁ g₁ n₁).2 u t₂ c₂ g₂ n₂).1 = .conflict d ∧
        ∀ e : Doc, (save (save st u t₁ c₁ g₁ n₁).2 u t₂ c₂ g₂ n₂).1 ≠ .created e := by
  intro st u t₁ c₁ g₁ n₁ t₂ c₂ g₂ n₂ hnone
  have h1 : save st u t₁ c₁ g₁ n₁ =
      (.created (mkDoc st.nextId u t₁ c₁ g₁ n₁),
       ⟨st.docs ++ [mkDoc st.nextId u t₁ c₁ g₁ n₁], st.nextId + 1⟩) := by
    unfold save
    rw [hnone]
  have h2 : findByUrl ⟨st.docs ++ [mkDoc st.nextId u t₁ c₁ g₁ n₁], st.nextId + 1⟩ u =
      some (mkDoc st.nextId u t₁ c₁ g₁ n₁) := by
    unfold findByUrl at hnone ⊢
    rw [List.find?_append, hnone, Option.none_or]
    simp [mkDoc]
  have h3 : save ⟨st.docs ++ [mkDoc st.nextId u t₁ c₁ g₁ n₁], st.nextId + 1⟩
      u t₂ c₂ g₂ n₂ =
      (.conflict (mkDoc st.nextId u t₁ c₁ g₁ n₁),
       ⟨st.docs ++ [mkDoc st.nextId u t₁ c₁ g₁ n₁], st.nextId + 1⟩) := by
    unfold save
    rw [h2]
  refine ⟨mkDoc st.nextId u t₁ c₁ g₁ n₁, ?_, ?_, ?_⟩
  · rw [h1]
  · rw [h1, h3]
  · intro e
    rw [h1, h3]
    exact fun h => SaveResult.noConfusion h

/-- C3 (witness): instantiation of `C3_concurrent_save_unique` on the
empty store. -/
theorem C3_concurrent_save_unique_witness :
    ∃ d : Doc,
      (save ⟨[], 0⟩ "https://a.com/x" "T1" "body1" ["ai"] 1).1 = .created d ∧
      (save (save ⟨[], 0⟩ "https://a.com/x" "T1" "body1" ["ai"] 1).2
        "https://a.com/x" "T2" "body2" [] 2).1 = .conflict d ∧
      ∀ e : Doc, (save (save ⟨[], 0⟩ "https://a.com/x" "T1" "body1" ["ai"] 1).2
        "https://a.com/x" "T2" "body2" [] 2).1 ≠ .created e :=
  C3_concurrent_save_unique ⟨[], 0⟩ "https://a.com/x" "T1" "body1" ["ai"] 1
    "T2" "body2" [] 2 (by decide)

/-! ### C4 — semantic search only returns indexed documents -/

/-- C4: a document whose `embedding_status` is not `indexed` never appears
among semantic search results, whatever the retrieved chunk hits and the
limit. -/
theorem C4_semantic_only_indexed :
    ∀ (st : Store) (hits : List ChunkHit) (limit : Nat) (h : SearchHit),
      h ∈ semanticSearch st hits limit → h.doc.embedding_status = .indexed := by
  intro st hits limit h hmem
  unfold semanticSearch at hmem
  have hmem' := mem_of_mem_rank hmem
  rw [List.mem_filterMap] at hmem'
  obtain ⟨p, _, hfp⟩ := hmem'
  exact (resolveHit_some hfp).2.1

/-- A concrete indexed document, store and chunk-hit list used by the
concrete instantiations below. -/
def sampleDoc : Doc :=
  { id := 0, canonical_url := "https://a.com/x", title := "T",
    content := "body", tags := ["ai"], summary := "s",
    summary_status := .done, embedding_status := .indexed,
    read_status := false, created_at := 10 }

/-- A concrete store holding only `sampleDoc`. -/
def sampleStore : Store := ⟨[sampleDoc], 1⟩

/-- Two chunk hits for `sampleDoc`, with scores 5 and 9. -/
def sampleHits : List ChunkHit := [⟨0, 0, 5⟩, ⟨0, 1, 9⟩]

/-- C4 (witness): instantiation of `C4_semantic_only_indexed` at the
concrete store and hits. -/
theorem C4_semantic_only_indexed_witness :
    (⟨sampleDoc, 9⟩ : SearchHit) ∈ semanticSearch sampleStore sampleHits 10 ∧
    (⟨sampleDoc, 9⟩ : SearchHit).doc.embedding_status = .indexed :=
  ⟨by decide,
   C4_semantic_only_indexed sampleStore sampleHits 10 ⟨sampleDoc, 9⟩ (by decide)⟩

/-! ### C5 — result ordering, aggregation and truncation -/

/-- C5: every query result list (lexical or semantic) is sorted by
relevance score descending with ties broken by `created_at` descending,
and holds at most `limit` hits; in semantic mode the result documents are
pairwise distinct (deduplicated by document id) and each hit's score is
the maximum of the retrieved chunk scores of its document. -/
theorem C5_query_ordering :
    ∀ (st : Store) (q : String) (semantic : Bool) (hits : List ChunkHit)
      (limit : Nat),
      List.Sorted hitOrder (query st q semantic hits limit) ∧
      (query st q semantic hits limit).length ≤ limit ∧
      (semantic = true →
        ((query st q semantic hits limit).map (fun h => h.doc.id)).Nodup ∧
        ∀ h ∈ query st q semantic hits limit,
          (chunkScoresFor hits h.doc.id).max? = some h.relevance_score) := by
  intro st q semantic hits limit
  refine ⟨?_, ?_, ?_⟩
  · rw [query_eq_rank]
    exact rank_sorted _ _
  · rw [query_eq_rank]
    exact rank_length_le _ _
  · rintro rfl
    have hqs : querySource st q true hits = (aggregate hits).filterMap (resolveHit st) := rfl
    constructor
    · have hnodup :
          (((aggregate hits).filterMap (resolveHit st)).map (fun h => h.doc.id)).Nodup := by
        have hsub : List.Sublist
            (((aggregate hits).filterMap (resolveHit st)).map (fun h => h.doc.id))
            ((aggregate hits).map Prod.fst) :=
          filterMap_map_key_sublist (resolveHit st) (fun h => h.doc.id) Prod.fst
            (fun p h hp => (resolveHit_some hp).2.2.1) (aggregate hits)
        exact List.Nodup.sublist hsub (aggregate_keys_nodup hits)
      rw [query_eq_rank, hqs]
      unfold rank
      rw [List.map_take]
      apply List.Nodup.sublist (List.take_sublist _ _)
      have hperm :
          List.Perm ((List.insertionSort hitOrder
              ((aggregate hits).filterMap (resolveHit st))).map (fun h => h.doc.id))
            (((aggregate hits).filterMap (resolveHit st)).map (fun h => h.doc.id)) :=
        (List.perm_insertionSort hitOrder _).map _
      exact hperm.symm.nodup hnodup
    · intro h hm
      rw [query_eq_rank, hqs] at hm
      have hm2 := mem_of_mem_rank hm
      rw [List.mem_filterMap] at hm2
      obtain ⟨p, hp, hr⟩ := hm2
      obtain ⟨-, -, hid, hscore⟩ := resolveHit_some hr
      rw [hid, hscore]
      exact mem_aggregate hp

/-- C5 (witness): instantiation of `C5_query_ordering` at the concrete
store and hits, with the semantic flag and a concrete member hit. -/
theorem C5_query_ordering_witness :
    ((query sampleStore "x" true sampleHits 10).map (fun h => h.doc.id)).Nodup ∧
    (chunkScoresFor sampleHits (⟨sampleDoc, 9⟩ : SearchHit).doc.id).max? =
      some (⟨sampleDoc, 9⟩ : SearchHit).relevance_score :=
  ⟨((C5_query_ordering sampleStore "x" true sampleHits 10).2.2 rfl).1,
   ((C5_query_ordering sampleStore "x" true sampleHits 10).2.2 rfl).2
     ⟨sampleDoc, 9⟩ (by decide)⟩

end Backend

end SmartReadingList
